import Mathlib

/-!
# Verification of the piepay offer service

Shallow embedding of the offer normalizer, store and discount query engine
from `src/controllers/offerController.js`, together with the Offer schema
(`models/Offer.js`).  JavaScript objects with possibly-absent fields are
embedded as structures with `Option` fields (`none` = the field is absent /
`undefined`); JS numbers are embedded as `ℚ`; code that can throw a runtime
exception is embedded in `Except Unit` (`Except.error ()` = an exception was
thrown, which the controller's `catch` turns into a 500 response).
-/

/-! ## Raw vendor payload (request body) -/

/-- One contributor record of an `offer_sections` entry: the banks and
payment instruments that enable an adjustment. -/
structure Contributors where
  payment_instrument : Option (List String)
  banks : Option (List String)
deriving DecidableEq

/-- One element of a section's `offers` array, carrying the correlation key
`adjustment_id` and the `contributors` sub-object. -/
structure SectionOffer where
  adjustment_id : Option String
  contributors : Option Contributors
deriving DecidableEq

/-- One value of the `offer_sections` object (a section groups offers). -/
structure OfferSection where
  offers : Option (List SectionOffer)
deriving DecidableEq

/-- The vendor's `offer_txn_limits` sub-object, amounts in minor units. -/
structure OfferTxnLimits where
  min_txn_value : Option ℚ
  max_discount_per_txn : Option ℚ
deriving DecidableEq

/-- The `offer_details` sub-object of an adjustment. -/
structure OfferDetails where
  adjustment_id : Option String
  title : Option String
  summary : Option String
  adjustment_type : Option String
  adjustment_sub_type : Option String
  offer_txn_limits : Option OfferTxnLimits
deriving DecidableEq

/-- One entry of the vendor's `adjustment_list`. -/
structure Adjustment where
  offer_details : Option OfferDetails
deriving DecidableEq

/-- The `adjustments` sub-object used by the fallback path
`options[0].adjustments.adjustment_list`. -/
structure Adjustments where
  adjustment_list : Option (List Adjustment)
deriving DecidableEq

/-- One entry of the vendor's `options` array. -/
structure ApiOption where
  adjustments : Option Adjustments
deriving DecidableEq

/-- The content root of the vendor response.  A JS object's `for..in`
iteration over `offer_sections` is embedded as the ordered list of the
object's values (the section keys are never used by the code); a value may
be `none` (a non-object / absent section, skipped by the
`if (section && Array.isArray(section.offers))` guard). -/
structure ApiData where
  offer_sections : Option (List (Option OfferSection))
  adjustment_list : Option (List Adjustment)
  options : Option (List ApiOption)
deriving DecidableEq

/-- The `flipkartOfferApiResponse` request-body field: its real content may
be nested under `RESPONSE` or sit directly on the object. -/
structure Payload where
  RESPONSE : Option ApiData
  direct : ApiData
deriving DecidableEq

/-- `flipkartOfferApiResponse.RESPONSE || flipkartOfferApiResponse`. -/
def apiRoot (p : Payload) : ApiData :=
  p.RESPONSE.getD p.direct

/-! ## Canonical Offer records (the persisted model) -/

/-- One entry of a canonical offer's `paymentInstruments` array. -/
structure PaymentInstrumentEntry where
  paymentInstrument : String
  banks : List String
deriving DecidableEq

/-- A canonical Offer record as persisted by the Offer schema. -/
structure Offer where
  adjustmentId : String
  title : Option String
  description : String
  type : Option String
  paymentInstruments : List PaymentInstrumentEntry
  minTrxnValue : ℚ
  maxDiscount : ℚ
  discountPercentage : ℚ
deriving DecidableEq

/-! ## Percentage extraction (`parseSummaryForPercentage`)

The JS code runs `summary.match(/(\d+)% off/)` and `parseInt` on the first
capture group.  Regex-engine semantics for this pattern: scan start
positions left to right; at a position the pattern matches exactly when the
position starts with a (maximal) nonempty digit run immediately followed by
the literal `% off` (backtracking the greedy `\d+` can never help, because
the character after a shorter digit run is still a digit, not `%`). -/

/-- The literal `% off` that must follow the digit run. -/
def percentOffLit : List Char := ['%', ' ', 'o', 'f', 'f']

/-- `headMatches pat s` is true when `s` starts with the literal `pat`. -/
def headMatches : List Char → List Char → Bool
  | [], _ => true
  | _ :: _, [] => false
  | p :: ps, c :: cs => p == c && headMatches ps cs

/-- Numeric value of a digit string, as computed by `parseInt(·, 10)`. -/
def digitsVal (cs : List Char) : ℕ :=
  cs.foldl (fun n c => 10 * n + (c.toNat - '0'.toNat)) 0

/-- Left-to-right scan for the first match of `/(\d+)% off/`; returns the
digit run captured by group 1. -/
def findPercentOffDigits : List Char → Option (List Char)
  | [] => none
  | c :: rest =>
    if c.isDigit && headMatches percentOffLit ((c :: rest).dropWhile Char.isDigit) then
      some ((c :: rest).takeWhile Char.isDigit)
    else
      findPercentOffDigits rest

/-- `parseSummaryForPercentage` from the controller: 0 when the regex does
not match, otherwise `parseInt` of the captured digits. -/
def parseSummaryForPercentage (summary : String) : ℚ :=
  match findPercentOffDigits summary.toList with
  | some ds => (digitsVal ds : ℚ)
  | none => 0

/-! ## Normalizer (`createOffers` steps 1–3) -/

/-- Last-write-wins lookup, matching `Map.set`/`Map.get`: the entry recorded
latest for a key is the one returned. -/
def lookupLast (m : List (String × Contributors)) (k : String) : Option Contributors :=
  m.foldl (fun acc kv => if kv.1 = k then some kv.2 else acc) none

/-- Step 1: build the contributors map from `offer_sections`.  Only sections
with an `offers` array contribute; an entry is recorded when both
`offer.adjustment_id` and `offer.contributors` are truthy (an absent or
empty-string id is falsy in JS and is skipped). -/
def buildContributorsMap (api : ApiData) : List (String × Contributors) :=
  (api.offer_sections.getD []).foldl
    (fun m sec =>
      match sec with
      | none => m
      | some s =>
        match s.offers with
        | none => m
        | some offs =>
          offs.foldl
            (fun m off =>
              match off.adjustment_id, off.contributors with
              | some aid, some cs => if aid = "" then m else m ++ [(aid, cs)]
              | _, _ => m)
            m)
    []

/-- Step 2: locate the adjustment list, trying `apiData.adjustment_list`
first and `apiData.options?.[0]?.adjustments?.adjustment_list` second,
defaulting to `[]`. -/
def adjListOf (api : ApiData) : List Adjustment :=
  match api.adjustment_list with
  | some l => l
  | none =>
    match api.options with
    | none => []
    | some opts =>
      match opts.head? with
      | none => []
      | some o =>
        match o.adjustments with
        | none => []
        | some a => a.adjustment_list.getD []

/-- The `.filter` predicate of step 3: keep an adjustment when
`adj.offer_details` is truthy and its `adjustment_sub_type` is not the
`EMI_FULL_INTEREST_WAIVER` sentinel (an absent sub-type passes `!==`). -/
def keepAdj (adj : Adjustment) : Bool :=
  match adj.offer_details with
  | none => false
  | some d => decide (d.adjustment_sub_type ≠ some "EMI_FULL_INTEREST_WAIVER")

/-- The `.map` callback of step 3 run on one adjustment.  `Except.error ()`
models a thrown TypeError: reading `.adjustment_id` of absent
`offer_details` (unreachable after the filter), calling `.match` on an
absent `summary`, or calling `.map` on an absent `payment_instrument` list.
`Except.ok none` models the `return null` taken when the contributors map
has no entry for the adjustment id (`Map.get` of an absent — or absent
`adjustment_id` — key is `undefined`). -/
def mapAdj (cmap : List (String × Contributors)) (adj : Adjustment) :
    Except Unit (Option Offer) :=
  match adj.offer_details with
  | none => Except.error ()
  | some details =>
    let contribs :=
      match details.adjustment_id with
      | none => none
      | some aid => lookupLast cmap aid
    match contribs with
    | none => Except.ok none
    | some contributors =>
      match details.summary with
      | none => Except.error ()
      | some summary =>
        let discountPercentage := parseSummaryForPercentage summary
        let minTrxnValue := ((details.offer_txn_limits.bind (·.min_txn_value)).getD 0) / 100
        let maxDiscount := ((details.offer_txn_limits.bind (·.max_discount_per_txn)).getD 0) / 100
        match contributors.payment_instrument with
        | none => Except.error ()
        | some instrs =>
          let paymentInstruments := instrs.map (fun instrument =>
            { paymentInstrument := instrument
              banks := contributors.banks.getD [] : PaymentInstrumentEntry })
          Except.ok (some
            { adjustmentId := (details.adjustment_id).getD ""
              title := details.title
              description := summary
              type := details.adjustment_type
              paymentInstruments := paymentInstruments
              minTrxnValue := minTrxnValue
              maxDiscount := maxDiscount
              discountPercentage := discountPercentage })

/-- `Array.prototype.map` over the kept adjustments: the first thrown
exception aborts the whole map. -/
def mapAdjList (cmap : List (String × Contributors)) :
    List Adjustment → Except Unit (List (Option Offer))
  | [] => Except.ok []
  | a :: rest =>
    match mapAdj cmap a with
    | Except.error e => Except.error e
    | Except.ok o =>
      match mapAdjList cmap rest with
      | Except.error e => Except.error e
      | Except.ok os => Except.ok (o :: os)

/-- The whole normalizer: steps 1–3 of `createOffers`, producing the
`offersToProcess` list (or a thrown exception). -/
def normalizeOffers (p : Payload) : Except Unit (List Offer) :=
  let api := apiRoot p
  let cmap := buildContributorsMap api
  match mapAdjList cmap ((adjListOf api).filter keepAdj) with
  | Except.error e => Except.error e
  | Except.ok mapped => Except.ok (mapped.filterMap id)

/-! ## Offer store and ingestion (`createOffers` step 4) -/

/-- Existence test against the store, as decided by
`Offer.find({ adjustmentId: { $in: ids } })` plus the `Set` lookup. -/
def existsInStore (store : List Offer) (aid : String) : Bool :=
  store.any (fun e => e.adjustmentId == aid)

/-- The Offer schema's `required: true` check on a string path: mongoose's
`checkRequired` for strings accepts only a present, nonempty string. -/
def requiredString (s : Option String) : Bool :=
  match s with
  | none => false
  | some v => decide (v ≠ "")

/-- Document validation against the Offer schema: `adjustmentId`, `title`,
`description` and `type` are `required: true` (the remaining paths carry
defaults and are never rejected). -/
def validOffer (o : Offer) : Bool :=
  decide (o.adjustmentId ≠ "") && requiredString o.title &&
  decide (o.description ≠ "") && requiredString o.type

/-- The server-side ordered insert under the unique index that the Offer
schema declares on `adjustmentId`: documents are inserted one at a time;
the first duplicate key aborts the batch with an error, keeping the
documents inserted before it. -/
def insertOrderedLoop : List Offer → List Offer → List Offer × Bool
  | store, [] => (store, true)
  | store, o :: rest =>
    if existsInStore store o.adjustmentId then (store, false)
    else insertOrderedLoop (store ++ [o]) rest

/-- Models the storage collaborator's `insertMany` (the mongoose default:
ordered).  Mongoose first validates every document against the schema and,
when one fails, rejects the whole call with a `ValidationError` before
anything is inserted; otherwise the ordered insert runs under the unique
index on `adjustmentId`.  Returns the resulting store and `true` when no
rejection occurred. -/
def insertManyOrdered (store batch : List Offer) : List Offer × Bool :=
  if batch.all validOffer then insertOrderedLoop store batch
  else (store, false)

/-- Observable response of the `POST /offer` controller. -/
inductive CreateResponse where
  | badRequest
  | ok (status identified created : ℕ)
  | serverError
deriving DecidableEq

/-- Storage operations performed by an ingestion call. -/
inductive StoreOp where
  | find (ids : List String)
  | insert (batch : List Offer)
deriving DecidableEq

/-- Result of one ingestion call: the store afterwards, the HTTP response,
and the storage operations that were performed. -/
structure CreateOutcome where
  store : List Offer
  response : CreateResponse
  ops : List StoreOp
deriving DecidableEq

/-- The insert half of step 4: `insertMany` only when there is something to
create; a rejected insert is caught by the controller's `catch` (500),
otherwise the 201 response reports the counts. -/
def insertPhase (store : List Offer) (newOffersToCreate : List Offer)
    (identified : ℕ) : List Offer × CreateResponse :=
  if 0 < newOffersToCreate.length then
    match insertManyOrdered store newOffersToCreate with
    | (store', true) => (store', CreateResponse.ok 201 identified newOffersToCreate.length)
    | (store', false) => (store', CreateResponse.serverError)
  else (store, CreateResponse.ok 201 identified 0)

/-- The whole `createOffers` controller acting on a store.  `body = none`
models a request body without the `flipkartOfferApiResponse` field. -/
def createOffers (store : List Offer) (body : Option Payload) : CreateOutcome :=
  match body with
  | none => ⟨store, CreateResponse.badRequest, []⟩
  | some p =>
    match normalizeOffers p with
    | Except.error _ => ⟨store, CreateResponse.serverError, []⟩
    | Except.ok offersToProcess =>
      if offersToProcess.length = 0 then
        ⟨store, CreateResponse.ok 200 0 0, []⟩
      else
        let adjustmentIds := offersToProcess.map (·.adjustmentId)
        let newOffersToCreate :=
          offersToProcess.filter (fun o => !(existsInStore store o.adjustmentId))
        let r := insertPhase store newOffersToCreate offersToProcess.length
        ⟨r.1, r.2,
          if 0 < newOffersToCreate.length then
            [StoreOp.find adjustmentIds, StoreOp.insert newOffersToCreate]
          else [StoreOp.find adjustmentIds]⟩

/-! ## Discount query engine (`getHighestDiscount`) -/

/-- The MongoDB filter built by the controller: some `paymentInstruments`
entry's `banks` array contains `bankName`, `minTrxnValue <= amount`, and —
when an instrument was supplied — some entry's `paymentInstrument` equals
it (MongoDB matches the two array conditions independently). -/
def offerMatchesQuery (amount : ℚ) (bankName : String) (instr : Option String)
    (o : Offer) : Bool :=
  o.paymentInstruments.any (fun pi => pi.banks.any (fun b => b == bankName)) &&
  decide (o.minTrxnValue ≤ amount) &&
  (match instr with
   | none => true
   | some i => o.paymentInstruments.any (fun pi => pi.paymentInstrument == i))

/-- Per-offer discount computed inside the `reduce`. -/
def offerDiscount (amount : ℚ) (o : Offer) : ℚ :=
  if 0 < o.discountPercentage then
    let d := amount * o.discountPercentage / 100
    if 0 < o.maxDiscount ∧ o.maxDiscount < d then o.maxDiscount else d
  else if 0 < o.maxDiscount then o.maxDiscount
  else 0

/-- The scoring core of `getHighestDiscount`: filter the store by the query
and `reduce` with `Math.max`, starting from 0. -/
def highestDiscountCore (store : List Offer) (amount : ℚ) (bankName : String)
    (instr : Option String) : ℚ :=
  (store.filter (offerMatchesQuery amount bankName instr)).foldl
    (fun m o => max m (offerDiscount amount o)) 0

/-- Whitespace stripped by JS string-to-number coercion. -/
def jsWhitespace (c : Char) : Bool :=
  c == ' ' || c == '\t' || c == '\n' || c == '\r'

/-- Strip leading and trailing whitespace, as `Number(·)` does before
parsing. -/
def trimChars (cs : List Char) : List Char :=
  ((cs.dropWhile jsWhitespace).reverse.dropWhile jsWhitespace).reverse

/-- JS `Number(·)` on an optional query-string value, embedded for the
inputs this API can see: `none` is the parameter being absent
(`Number(undefined)` is `NaN`, embedded as `none`); a string is trimmed,
the empty string coerces to 0, an optional sign followed by a decimal
numeral parses to its value, anything else is `NaN`. -/
def jsNumber (s : Option String) : Option ℚ :=
  match s with
  | none => none
  | some str =>
    let t := trimChars str.toList
    if t = [] then some 0
    else
      let core : List Char → Option ℚ := fun cs =>
        let intPart := cs.takeWhile Char.isDigit
        match cs.dropWhile Char.isDigit with
        | [] => if intPart = [] then none else some (digitsVal intPart)
        | '.' :: frac =>
          if frac.all Char.isDigit ∧ (intPart ≠ [] ∨ frac ≠ []) then
            some ((digitsVal intPart : ℚ) + (digitsVal frac : ℚ) / (10 : ℚ) ^ frac.length)
          else none
        | _ => none
      match t with
      | '+' :: rest => core rest
      | '-' :: rest => (core rest).map (fun q => -q)
      | _ => core t

/-- `if (paymentInstrument)`: the instrument filter is added to the query
only when the parameter is a truthy (present, nonempty) string. -/
def normInstr (pi : Option String) : Option String :=
  match pi with
  | none => none
  | some s => if s = "" then none else some s

/-- Observable response of the `GET /highest-discount` controller. -/
inductive QueryResponse where
  | badRequest
  | ok (highestDiscountAmount : ℚ)
deriving DecidableEq

/-- The whole `getHighestDiscount` controller: validation
(`isNaN(Number(amountToPay)) || !bankName` rejects with 400) followed by
the filtered scoring. -/
def getHighestDiscount (store : List Offer)
    (amountToPay bankName paymentInstrument : Option String) : QueryResponse :=
  match jsNumber amountToPay, bankName with
  | none, _ => QueryResponse.badRequest
  | some _, none => QueryResponse.badRequest
  | some amt, some bk =>
    if bk = "" then QueryResponse.badRequest
    else QueryResponse.ok (highestDiscountCore store amt bk (normInstr paymentInstrument))

/-! ## Specification-side definitions

These transcribe the wording of the natural-language claims; the theorems
below compare them with the code embedding above. -/

/-- Claim wording (spec 4.3 step 1): an offer is applicable when the bank
name appears in some `paymentInstruments[].banks`, `minTrxnValue` is at
most the amount, and a supplied instrument appears among the
`paymentInstruments[].instrument` values. -/
def specApplicable (amount : ℚ) (bankName : String) (instr : Option String)
    (o : Offer) : Prop :=
  (∃ pi ∈ o.paymentInstruments, bankName ∈ pi.banks) ∧
  o.minTrxnValue ≤ amount ∧
  ∀ i, instr = some i → ∃ pi ∈ o.paymentInstruments, pi.paymentInstrument = i

/-- Claim wording (spec 4.3 step 2): the per-offer discount is
`amountToPay * discountPercentage / 100` clamped to `maxDiscount` when both
are positive, the flat `maxDiscount` when only it is positive, else 0. -/
def specDiscount (amount : ℚ) (o : Offer) : ℚ :=
  if 0 < o.discountPercentage then
    if 0 < o.maxDiscount then min (amount * o.discountPercentage / 100) o.maxDiscount
    else amount * o.discountPercentage / 100
  else if 0 < o.maxDiscount then o.maxDiscount
  else 0

/-- Claim wording (spec 4.1 step 5): minor-to-major unit conversion, with an
absent vendor field yielding 0. -/
def specMinorToMajor : Option ℚ → ℚ
  | none => 0
  | some v => v / 100

/-- Claim wording (C4): the pattern `<integer>% off` occurs at position `i`
of `s` with digit run `ds` — `s.drop i` is a nonempty digit string `ds`
immediately followed by the literal `% off`. -/
def percentPatternAt (s : List Char) (i : ℕ) (ds : List Char) : Prop :=
  ds ≠ [] ∧ (∀ c ∈ ds, c.isDigit) ∧ ∃ t, s.drop i = ds ++ percentOffLit ++ t

/-- The counts `{noOfOffersIdentified, noOfNewOffersCreated}` reported by a
successful (200/201) ingestion response. -/
def reportedCounts : CreateResponse → Option (ℕ × ℕ)
  | CreateResponse.ok _ identified created => some (identified, created)
  | _ => none

/-! ## Concrete fixtures (used by witnesses and counterexamples) -/

/-- The percentage-bearing description of the spec's worked example. -/
def exampleSummary : String :=
  "5% off up to ₹750 on IDFC FIRST Power Women Platinum and Signature Debit Cards. Min Trxn value ₹5,000"

/-- Contributor with a CREDIT instrument enabled for IDFC. -/
def exampleContributors : Contributors :=
  ⟨some ["CREDIT"], some ["IDFC"]⟩

/-- A well-formed payload: one adjustment `ADJ1` with full details and a
matching contributor. -/
def examplePayload : Payload :=
  ⟨some
    { offer_sections := some [some ⟨some [⟨some "ADJ1", some exampleContributors⟩]⟩]
      adjustment_list := some
        [⟨some
          { adjustment_id := some "ADJ1"
            title := some "Bank Offer"
            summary := some exampleSummary
            adjustment_type := some "INSTANT_DISCOUNT"
            adjustment_sub_type := some "NON_EMI"
            offer_txn_limits := some ⟨some 500000, some 75000⟩ }⟩]
      options := none },
   ⟨none, none, none⟩⟩

/-- The canonical record the normalizer produces from `examplePayload`. -/
def exampleOffer : Offer :=
  { adjustmentId := "ADJ1"
    title := some "Bank Offer"
    description := exampleSummary
    type := some "INSTANT_DISCOUNT"
    paymentInstruments := [⟨"CREDIT", ["IDFC"]⟩]
    minTrxnValue := 5000
    maxDiscount := 750
    discountPercentage := 5 }

/-- A payload whose two schema-valid adjustments share the
`adjustment_id` `A1`. -/
def dupIdPayload : Payload :=
  ⟨none,
   { offer_sections := some [some ⟨some [⟨some "A1", some exampleContributors⟩]⟩]
     adjustment_list := some
       [⟨some ⟨some "A1", some "First copy", some "first copy",
          some "INSTANT_DISCOUNT", none, none⟩⟩,
        ⟨some ⟨some "A1", some "Second copy", some "second copy",
          some "INSTANT_DISCOUNT", none, none⟩⟩]
     options := none }⟩

/-- The two candidates normalized from `dupIdPayload`. -/
def dupOffer1 : Offer :=
  ⟨"A1", some "First copy", "first copy", some "INSTANT_DISCOUNT",
   [⟨"CREDIT", ["IDFC"]⟩], 0, 0, 0⟩

/-- Second candidate normalized from `dupIdPayload`, same `adjustmentId`. -/
def dupOffer2 : Offer :=
  ⟨"A1", some "Second copy", "second copy", some "INSTANT_DISCOUNT",
   [⟨"CREDIT", ["IDFC"]⟩], 0, 0, 0⟩

/-- A payload whose single candidate has a distinct id but no `title`, so
it fails the schema's required-field validation at insert time. -/
def noTitlePayload : Payload :=
  ⟨none,
   { offer_sections := some [some ⟨some [⟨some "NT1", some exampleContributors⟩]⟩]
     adjustment_list := some
       [⟨some ⟨some "NT1", none, some "plain offer", some "INSTANT_DISCOUNT",
          none, none⟩⟩]
     options := none }⟩

/-- The candidate normalized from `noTitlePayload`. -/
def noTitleOffer : Offer :=
  ⟨"NT1", none, "plain offer", some "INSTANT_DISCOUNT",
   [⟨"CREDIT", ["IDFC"]⟩], 0, 0, 0⟩

/-- A payload whose only candidate survives the filter and has a matching
contributor but no `summary` text. -/
def noSummaryPayload : Payload :=
  ⟨none,
   { offer_sections := some [some ⟨some [⟨some "NS1", some exampleContributors⟩]⟩]
     adjustment_list := some [⟨some ⟨some "NS1", none, none, none, none, none⟩⟩]
     options := none }⟩

/-- A payload whose only candidate's description advertises `200% off`. -/
def pct200Payload : Payload :=
  ⟨none,
   { offer_sections := some [some ⟨some [⟨some "P2", some exampleContributors⟩]⟩]
     adjustment_list := some [⟨some ⟨some "P2", none, some "get 200% off now", none, none, none⟩⟩]
     options := none }⟩

/-- The record normalized from `pct200Payload`. -/
def pct200Offer : Offer :=
  ⟨"P2", none, "get 200% off now", none, [⟨"CREDIT", ["IDFC"]⟩], 0, 0, 200⟩

/-- A payload with an empty `adjustment_list`: zero candidates. -/
def emptyPayload : Payload :=
  ⟨none, ⟨none, some [], none⟩⟩

/-- An offer already stored by a concurrent ingestion of `A1`. -/
def concurrentOffer : Offer :=
  ⟨"A1", some "Concurrent copy", "stored by the concurrent call",
   some "INSTANT_DISCOUNT", [⟨"CREDIT", ["IDFC"]⟩], 0, 0, 0⟩

/-- A second, schema-valid, non-duplicate candidate sitting after the
duplicate in a batch. -/
def secondOffer : Offer :=
  ⟨"B1", some "Second offer", "another offer", some "INSTANT_DISCOUNT",
   [⟨"CREDIT", ["IDFC"]⟩], 0, 0, 0⟩

/-! ## Lemmas about the percentage scanner -/

lemma headMatches_iff (pat s : List Char) :
    headMatches pat s = true ↔ ∃ t, s = pat ++ t := by
  induction pat generalizing s with
  | nil => simp [headMatches]
  | cons p ps ih =>
    cases s with
    | nil => simp [headMatches]
    | cons c cs =>
      rw [show headMatches (p :: ps) (c :: cs) = (p == c && headMatches ps cs) from rfl,
        Bool.and_eq_true, beq_iff_eq, ih]
      constructor
      · rintro ⟨rfl, t, rfl⟩
        exact ⟨t, rfl⟩
      · rintro ⟨t, ht⟩
        rw [List.cons_append] at ht
        injection ht with h1 h2
        exact ⟨h1.symm, t, h2⟩

lemma takeWhile_digit_pattern (ds t : List Char) (h : ∀ c ∈ ds, c.isDigit) :
    (ds ++ percentOffLit ++ t).takeWhile Char.isDigit = ds := by
  induction ds with
  | nil => simp [percentOffLit, List.takeWhile_cons]
  | cons d ds ih =>
    have hd : d.isDigit = true := h d (List.mem_cons_self d ds)
    have ih' := ih (fun c hc => h c (List.mem_cons_of_mem d hc))
    rw [List.append_assoc] at ih'
    simp [List.cons_append, List.takeWhile_cons, hd, ih']

lemma dropWhile_digit_pattern (ds t : List Char) (h : ∀ c ∈ ds, c.isDigit) :
    (ds ++ percentOffLit ++ t).dropWhile Char.isDigit = percentOffLit ++ t := by
  induction ds with
  | nil => simp [percentOffLit, List.dropWhile_cons]
  | cons d ds ih =>
    have hd : d.isDigit = true := h d (List.mem_cons_self d ds)
    have ih' := ih (fun c hc => h c (List.mem_cons_of_mem d hc))
    rw [List.append_assoc] at ih'
    simp [List.cons_append, List.dropWhile_cons, hd, ih']

lemma percentPatternAt_zero_val (s ds : List Char) (h : percentPatternAt s 0 ds) :
    ds = s.takeWhile Char.isDigit := by
  obtain ⟨hne, hdig, t, ht⟩ := h
  rw [List.drop_zero] at ht
  rw [ht]
  exact (takeWhile_digit_pattern ds t hdig).symm

lemma percentPatternAt_zero_iff (c : Char) (rest : List Char) :
    (∃ ds, percentPatternAt (c :: rest) 0 ds) ↔
      (c.isDigit && headMatches percentOffLit ((c :: rest).dropWhile Char.isDigit)) = true := by
  constructor
  · rintro ⟨ds, hne, hdig, t, ht⟩
    rw [List.drop_zero] at ht
    cases ds with
    | nil => exact absurd rfl hne
    | cons d ds' =>
      have hc : c = d := by
        have := ht
        simp only [List.cons_append] at this
        exact (List.cons.injEq _ _ _ _).mp this |>.1
      rw [Bool.and_eq_true]
      constructor
      · rw [hc]; exact hdig d (List.mem_cons_self d ds')
      · rw [ht, dropWhile_digit_pattern _ _ hdig, headMatches_iff]
        exact ⟨t, rfl⟩
  · intro h
    rw [Bool.and_eq_true] at h
    obtain ⟨t, hdw⟩ := (headMatches_iff _ _).mp h.2
    refine ⟨(c :: rest).takeWhile Char.isDigit, ?_, ?_, t, ?_⟩
    · simp [List.takeWhile_cons, h.1]
    · intro x hx
      exact List.mem_takeWhile_imp hx
    · rw [List.drop_zero, List.append_assoc, ← hdw, List.takeWhile_append_dropWhile]

lemma percentPatternAt_succ (c : Char) (rest : List Char) (i : ℕ) (ds : List Char) :
    percentPatternAt (c :: rest) (i + 1) ds ↔ percentPatternAt rest i ds := by
  simp [percentPatternAt, List.drop_succ_cons]

lemma percentPatternAt_unique {s : List Char} {i : ℕ} {ds ds' : List Char}
    (h1 : percentPatternAt s i ds) (h2 : percentPatternAt s i ds') : ds = ds' := by
  have e1 : percentPatternAt (s.drop i) 0 ds := by
    simpa [percentPatternAt] using h1
  have e2 : percentPatternAt (s.drop i) 0 ds' := by
    simpa [percentPatternAt] using h2
  rw [percentPatternAt_zero_val _ _ e1, percentPatternAt_zero_val _ _ e2]

lemma findPercentOffDigits_none (s : List Char) (h : findPercentOffDigits s = none) :
    ∀ i ds, ¬ percentPatternAt s i ds := by
  induction s with
  | nil =>
    rintro i ds ⟨hne, _, t, ht⟩
    rw [List.drop_nil] at ht
    rcases ds with _ | ⟨d, ds'⟩
    · exact hne rfl
    · simp [percentOffLit] at ht
  | cons c rest ih =>
    rw [findPercentOffDigits] at h
    split at h
    · exact absurd h (by simp)
    · intro i ds hp
      match i with
      | 0 =>
        next hcond =>
          exact hcond ((percentPatternAt_zero_iff c rest).mp ⟨ds, hp⟩)
      | Nat.succ j =>
        exact ih h j ds ((percentPatternAt_succ c rest j ds).mp hp)

lemma findPercentOffDigits_some (s ds : List Char) (h : findPercentOffDigits s = some ds) :
    ∃ i, percentPatternAt s i ds ∧ ∀ j ds', j < i → ¬ percentPatternAt s j ds' := by
  induction s generalizing ds with
  | nil => simp [findPercentOffDigits] at h
  | cons c rest ih =>
    rw [findPercentOffDigits] at h
    split at h
    · next hcond =>
      refine ⟨0, ?_, ?_⟩
      · obtain ⟨ds₀, hp₀⟩ := (percentPatternAt_zero_iff c rest).mpr hcond
        have : ds₀ = (c :: rest).takeWhile Char.isDigit := percentPatternAt_zero_val _ _ hp₀
        have hds : ds = ds₀ := by
          injection h with h'
          rw [← h', this]
        rw [hds]; exact hp₀
      · intro j ds' hj
        exact absurd hj (Nat.not_lt_zero j)
    · next hcond =>
      obtain ⟨i, hp, hmin⟩ := ih ds h
      refine ⟨i + 1, (percentPatternAt_succ c rest i ds).mpr hp, ?_⟩
      intro j ds' hj
      match j with
      | 0 =>
        intro hp'
        exact hcond ((percentPatternAt_zero_iff c rest).mp ⟨ds', hp'⟩)
      | Nat.succ k =>
        intro hp'
        exact hmin k ds' (Nat.lt_of_succ_lt_succ hj)
          ((percentPatternAt_succ c rest k ds').mp hp')

/-- The extracted percentage is always the cast of a natural number. -/
lemma parseSummaryForPercentage_natCast (s : String) :
    ∃ n : ℕ, parseSummaryForPercentage s = (n : ℚ) := by
  unfold parseSummaryForPercentage
  cases findPercentOffDigits s.toList with
  | none => exact ⟨0, by simp⟩
  | some ds => exact ⟨digitsVal ds, rfl⟩

/-- C4: for every description string, the extracted `discountPercentage` is
the `parseInt` value of the digit run of the first (leftmost) occurrence of
the pattern `<integer>% off`, and 0 when the string has no occurrence of
the pattern; the spec's worked example extracts 5. -/
theorem c4_percentage_extraction :
    (∀ (s : String) (i : ℕ) (ds : List Char),
        percentPatternAt s.toList i ds →
        (∀ j ds', j < i → ¬ percentPatternAt s.toList j ds') →
        parseSummaryForPercentage s = (digitsVal ds : ℚ)) ∧
    (∀ s : String, (∀ i ds, ¬ percentPatternAt s.toList i ds) →
        parseSummaryForPercentage s = 0) ∧
    parseSummaryForPercentage exampleSummary = 5 := by
  refine ⟨?_, ?_, by decide⟩
  · intro s i ds hp hfirst
    cases hf : findPercentOffDigits s.toList with
    | none => exact absurd hp (findPercentOffDigits_none _ hf i ds)
    | some ds' =>
      obtain ⟨i', hp', hmin'⟩ := findPercentOffDigits_some _ _ hf
      have hii : i = i' := by
        rcases Nat.lt_trichotomy i i' with hlt | heq | hgt
        · exact absurd hp (hmin' i ds hlt)
        · exact heq
        · exact absurd hp' (hfirst i' ds' hgt)
      subst hii
      have : ds = ds' := percentPatternAt_unique hp hp'
      subst this
      unfold parseSummaryForPercentage
      rw [hf]
  · intro s hnone
    cases hf : findPercentOffDigits s.toList with
    | none =>
      unfold parseSummaryForPercentage
      rw [hf]
    | some ds' =>
      obtain ⟨i', hp', _⟩ := findPercentOffDigits_some _ _ hf
      exact absurd hp' (hnone i' ds')

/-- Witness for `c4_percentage_extraction` at the concrete description
`12% off!`. -/
theorem c4_percentage_extraction_witness :
    parseSummaryForPercentage "12% off!" = (digitsVal ['1', '2'] : ℚ) :=
  c4_percentage_extraction.1 "12% off!" 0 ['1', '2']
    ⟨by decide, by decide, ['!'], by decide⟩
    (fun j ds' hj => absurd hj (Nat.not_lt_zero j))

/-! ## Lemmas about the discount query engine -/

lemma le_foldlMax (f : Offer → ℚ) :
    ∀ (l : List Offer) (a : ℚ), a ≤ l.foldl (fun m o => max m (f o)) a
  | [], _ => le_refl _
  | o :: l, a => le_trans (le_max_left a (f o)) (le_foldlMax f l (max a (f o)))

lemma foldlMax_le_of_mem (f : Offer → ℚ) :
    ∀ (l : List Offer) (a : ℚ) (o : Offer), o ∈ l →
      f o ≤ l.foldl (fun m o => max m (f o)) a := by
  intro l
  induction l with
  | nil => intro a o h; exact absurd h (List.not_mem_nil o)
  | cons b l ih =>
    intro a o h
    rcases List.mem_cons.mp h with rfl | h'
    · exact le_trans (le_max_right a (f o)) (le_foldlMax f l (max a (f o)))
    · exact ih (max a (f b)) o h'

lemma foldlMax_cases (f : Offer → ℚ) :
    ∀ (l : List Offer) (a : ℚ),
      l.foldl (fun m o => max m (f o)) a = a ∨
        ∃ o ∈ l, l.foldl (fun m o => max m (f o)) a = f o := by
  intro l
  induction l with
  | nil => intro a; exact Or.inl rfl
  | cons b l ih =>
    intro a
    rcases ih (max a (f b)) with h | ⟨o, ho, h⟩
    · rcases max_choice a (f b) with hm | hm
      · exact Or.inl (by rw [List.foldl_cons, h, hm])
      · exact Or.inr ⟨b, List.mem_cons_self b l, by rw [List.foldl_cons, h, hm]⟩
    · exact Or.inr ⟨o, List.mem_cons_of_mem b ho, by rw [List.foldl_cons, h]⟩

lemma offerMatchesQuery_iff (amount : ℚ) (bankName : String) (instr : Option String)
    (o : Offer) :
    offerMatchesQuery amount bankName instr o = true ↔
      specApplicable amount bankName instr o := by
  unfold offerMatchesQuery specApplicable
  cases instr with
  | none =>
    simp only [Bool.and_true, Bool.and_eq_true, List.any_eq_true, beq_iff_eq,
      decide_eq_true_eq]
    constructor
    · rintro ⟨⟨pi, hpi, b, hb, rfl⟩, hle⟩
      exact ⟨⟨pi, hpi, hb⟩, hle, fun i hi => by cases hi⟩
    · rintro ⟨⟨pi, hpi, hb⟩, hle, _⟩
      exact ⟨⟨pi, hpi, bankName, hb, rfl⟩, hle⟩
  | some i =>
    simp only [Bool.and_eq_true, List.any_eq_true, beq_iff_eq, decide_eq_true_eq]
    constructor
    · rintro ⟨⟨⟨pi, hpi, b, hb, rfl⟩, hle⟩, pi', hpi', hinstr⟩
      exact ⟨⟨pi, hpi, hb⟩, hle, fun j hj => by
        cases hj; exact ⟨pi', hpi', hinstr⟩⟩
    · rintro ⟨⟨pi, hpi, hb⟩, hle, hinstr⟩
      obtain ⟨pi', hpi', he⟩ := hinstr i rfl
      exact ⟨⟨⟨pi, hpi, bankName, hb, rfl⟩, hle⟩, pi', hpi', he⟩

lemma offerDiscount_eq_specDiscount (amount : ℚ) (o : Offer) :
    offerDiscount amount o = specDiscount amount o := by
  unfold offerDiscount specDiscount
  by_cases hp : 0 < o.discountPercentage
  · rw [if_pos hp, if_pos hp]
    by_cases hm : 0 < o.maxDiscount
    · rw [if_pos hm]
      by_cases hd : o.maxDiscount < amount * o.discountPercentage / 100
      · rw [if_pos (And.intro hm hd)]
        exact (min_eq_right (le_of_lt hd)).symm
      · rw [if_neg (fun h => hd h.2)]
        exact (min_eq_left (not_lt.mp hd)).symm
    · rw [if_neg hm, if_neg (fun (h : 0 < o.maxDiscount ∧ _) => hm h.1)]
  · rw [if_neg hp, if_neg hp]

lemma specDiscount_nonneg (amount : ℚ) (o : Offer) (hamt : 0 ≤ amount) :
    0 ≤ specDiscount amount o := by
  unfold specDiscount
  by_cases hp : 0 < o.discountPercentage
  · have hd : 0 ≤ amount * o.discountPercentage / 100 :=
      div_nonneg (mul_nonneg hamt (le_of_lt hp)) (by norm_num)
    by_cases hm : 0 < o.maxDiscount
    · simp only [hp, hm, if_true]
      exact le_min hd (le_of_lt hm)
    · simp only [hp, hm, if_true, if_false]
      exact hd
  · by_cases hm : 0 < o.maxDiscount
    · simp only [hp, hm, if_true, if_false]
      exact le_of_lt hm
    · simp [hp, hm]

/-- C1: on the scoring core of `getHighestDiscount` (the query amount being
non-negative, as the contract's `amountToPay: positive decimal` requires),
the result is 0 when no stored offer satisfies the claim's selection
predicate, and otherwise it is the maximum of the claim's per-offer
discount over the offers that satisfy it: an upper bound that is attained
by some selected offer. -/
theorem c1_highest_discount (store : List Offer) (amount : ℚ) (bankName : String)
    (instr : Option String) (hamt : 0 ≤ amount) :
    ((∀ o ∈ store, ¬ specApplicable amount bankName instr o) →
        highestDiscountCore store amount bankName instr = 0) ∧
    (∀ o ∈ store, specApplicable amount bankName instr o →
        specDiscount amount o ≤ highestDiscountCore store amount bankName instr) ∧
    ((∃ o ∈ store, specApplicable amount bankName instr o) →
        ∃ o ∈ store, specApplicable amount bankName instr o ∧
          highestDiscountCore store amount bankName instr = specDiscount amount o) := by
  refine ⟨?_, ?_, ?_⟩
  · intro h
    have hfil : store.filter (offerMatchesQuery amount bankName instr) = [] := by
      rw [List.filter_eq_nil_iff]
      intro o ho
      intro hmatch
      exact h o ho ((offerMatchesQuery_iff amount bankName instr o).mp hmatch)
    unfold highestDiscountCore
    rw [hfil]
    rfl
  · intro o ho hspec
    have hmem : o ∈ store.filter (offerMatchesQuery amount bankName instr) :=
      List.mem_filter.mpr ⟨ho, (offerMatchesQuery_iff amount bankName instr o).mpr hspec⟩
    have := foldlMax_le_of_mem (offerDiscount amount) _ 0 o hmem
    rw [offerDiscount_eq_specDiscount] at this
    exact this
  · rintro ⟨o₀, ho₀, hs₀⟩
    have hmem₀ : o₀ ∈ store.filter (offerMatchesQuery amount bankName instr) :=
      List.mem_filter.mpr ⟨ho₀, (offerMatchesQuery_iff amount bankName instr o₀).mpr hs₀⟩
    rcases foldlMax_cases (offerDiscount amount)
        (store.filter (offerMatchesQuery amount bankName instr)) 0 with hz | ⟨o₁, ho₁, he⟩
    · refine ⟨o₀, ho₀, hs₀, ?_⟩
      have hub := foldlMax_le_of_mem (offerDiscount amount) _ 0 o₀ hmem₀
      rw [offerDiscount_eq_specDiscount] at hub
      have hcore : highestDiscountCore store amount bankName instr = 0 := hz
      rw [hcore]
      exact le_antisymm (specDiscount_nonneg amount o₀ hamt) (hcore ▸ hub)
    · obtain ⟨ho₁s, hm₁⟩ := List.mem_filter.mp ho₁
      refine ⟨o₁, ho₁s, (offerMatchesQuery_iff amount bankName instr o₁).mp hm₁, ?_⟩
      rw [← offerDiscount_eq_specDiscount]
      exact he

/-- Witness for `c1_highest_discount`: the spec's worked example (5% of
10000, capped at 750, minimum 5000, IDFC CREDIT). -/
theorem c1_highest_discount_witness :
    (0 : ℚ) ≤ 10000 ∧
    (((∀ o ∈ [exampleOffer], ¬ specApplicable 10000 "IDFC" (some "CREDIT") o) →
        highestDiscountCore [exampleOffer] 10000 "IDFC" (some "CREDIT") = 0) ∧
    (∀ o ∈ [exampleOffer], specApplicable 10000 "IDFC" (some "CREDIT") o →
        specDiscount 10000 o ≤ highestDiscountCore [exampleOffer] 10000 "IDFC" (some "CREDIT")) ∧
    ((∃ o ∈ [exampleOffer], specApplicable 10000 "IDFC" (some "CREDIT") o) →
        ∃ o ∈ [exampleOffer], specApplicable 10000 "IDFC" (some "CREDIT") o ∧
          highestDiscountCore [exampleOffer] 10000 "IDFC" (some "CREDIT") = specDiscount 10000 o)) :=
  ⟨by decide, c1_highest_discount [exampleOffer] 10000 "IDFC" (some "CREDIT") (by decide)⟩

/-- C10: the 400 branch of `getHighestDiscount` fires exactly when
`Number(amountToPay)` is NaN or `bankName` is absent or empty; an
empty-string `amountToPay` coerces to 0, and any numeric amount — zero or
negative included — passes validation and is scored by the filtering core
(the contract's `positive decimal` typing notwithstanding). -/
theorem c10_validation (store : List Offer) (a b pi : Option String) :
    (getHighestDiscount store a b pi = QueryResponse.badRequest ↔
      (jsNumber a = none ∨ b = none ∨ b = some "")) ∧
    jsNumber (some "") = some 0 ∧
    jsNumber (some "-5") = some (-5) ∧
    (∀ (q : ℚ) (bk : String), jsNumber a = some q → b = some bk → bk ≠ "" →
      getHighestDiscount store a b pi =
        QueryResponse.ok (highestDiscountCore store q bk (normInstr pi))) := by
  refine ⟨?_, by decide, by decide, ?_⟩
  · unfold getHighestDiscount
    cases ha : jsNumber a with
    | none => simp
    | some q =>
      cases b with
      | none => simp
      | some bk =>
        by_cases hbk : bk = ""
        · simp [hbk]
        · simp [hbk]
  · intro q bk hq hb hbk
    subst hb
    unfold getHighestDiscount
    rw [hq]
    simp [hbk]

/-- Witness for `c10_validation`: the empty-string amount coerces to 0 and
is scored normally against an empty store. -/
theorem c10_validation_witness :
    getHighestDiscount [] (some "") (some "IDFC") none =
      QueryResponse.ok (highestDiscountCore [] 0 "IDFC" (normInstr none)) :=
  (c10_validation [] (some "") (some "IDFC") none).2.2.2 0 "IDFC" (by decide) rfl
    (by decide)

/-! ## Lemmas about the normalizer and the store -/

lemma mapAdj_ok_some (cmap : List (String × Contributors)) (adj : Adjustment) (o : Offer)
    (h : mapAdj cmap adj = Except.ok (some o)) :
    ∃ d aid c s instrs, adj.offer_details = some d ∧ d.adjustment_id = some aid ∧
      lookupLast cmap aid = some c ∧ d.summary = some s ∧
      c.payment_instrument = some instrs ∧
      o.adjustmentId = aid ∧
      o.title = d.title ∧
      o.description = s ∧
      o.type = d.adjustment_type ∧
      o.paymentInstruments = instrs.map (fun instrument =>
        { paymentInstrument := instrument, banks := c.banks.getD [] }) ∧
      o.minTrxnValue = ((d.offer_txn_limits.bind (·.min_txn_value)).getD 0) / 100 ∧
      o.maxDiscount = ((d.offer_txn_limits.bind (·.max_discount_per_txn)).getD 0) / 100 ∧
      o.discountPercentage = parseSummaryForPercentage s := by
  rcases hdet : adj.offer_details with _ | d
  · simp [mapAdj, hdet] at h
  · simp only [mapAdj, hdet] at h
    rcases haid : d.adjustment_id with _ | aid
    · simp [haid] at h
    · simp only [haid] at h
      rcases hc : lookupLast cmap aid with _ | c
      · simp [hc] at h
      · simp only [hc] at h
        rcases hs : d.summary with _ | s
        · simp [hs] at h
        · simp only [hs] at h
          rcases hpi : c.payment_instrument with _ | instrs
          · simp [hpi] at h
          · simp only [hpi, Except.ok.injEq, Option.some.injEq] at h
            refine ⟨d, aid, c, s, instrs, rfl, haid, hc, hs, hpi, ?_⟩
            subst h
            simp

lemma mapAdjList_ok_mem (cmap : List (String × Contributors)) (l : List Adjustment)
    (res : List (Option Offer)) (o : Offer)
    (h : mapAdjList cmap l = Except.ok res) (hm : o ∈ res.filterMap id) :
    ∃ a ∈ l, mapAdj cmap a = Except.ok (some o) := by
  induction l generalizing res with
  | nil =>
    rw [mapAdjList] at h
    injection h with h'
    subst h'
    simp at hm
  | cons a rest ih =>
    rw [mapAdjList] at h
    rcases ha : mapAdj cmap a with e | oo
    · rw [ha] at h; cases h
    · rw [ha] at h
      rcases hr : mapAdjList cmap rest with e | os
      · rw [hr] at h; cases h
      · rw [hr] at h
        injection h with h'
        subst h'
        cases oo with
        | none =>
          rw [List.filterMap_cons_none rfl] at hm
          obtain ⟨a', ha', hmap⟩ := ih os hr hm
          exact ⟨a', List.mem_cons_of_mem a ha', hmap⟩
        | some x =>
          simp only [List.filterMap_cons, id_eq] at hm
          rcases List.mem_cons.mp hm with rfl | hm'
          · exact ⟨a, List.mem_cons_self a rest, ha⟩
          · obtain ⟨a', ha', hmap⟩ := ih os hr hm'
            exact ⟨a', List.mem_cons_of_mem a ha', hmap⟩

lemma normalizeOffers_mem (p : Payload) (offers : List Offer) (o : Offer)
    (h : normalizeOffers p = Except.ok offers) (hm : o ∈ offers) :
    ∃ adj ∈ adjListOf (apiRoot p), keepAdj adj = true ∧
      mapAdj (buildContributorsMap (apiRoot p)) adj = Except.ok (some o) := by
  simp only [normalizeOffers] at h
  rcases hml : mapAdjList (buildContributorsMap (apiRoot p))
      ((adjListOf (apiRoot p)).filter keepAdj) with e | mapped
  · rw [hml] at h; cases h
  · rw [hml] at h
    injection h with h'
    subst h'
    obtain ⟨a, ha, hmap⟩ := mapAdjList_ok_mem _ _ _ o hml hm
    obtain ⟨ha1, ha2⟩ := List.mem_filter.mp ha
    exact ⟨a, ha1, ha2, hmap⟩

lemma insertOrderedLoop_success :
    ∀ (batch store : List Offer),
      (∀ o ∈ batch, existsInStore store o.adjustmentId = false) →
      (batch.map (·.adjustmentId)).Nodup →
      insertOrderedLoop store batch = (store ++ batch, true) := by
  intro batch
  induction batch with
  | nil => intro store _ _; simp [insertOrderedLoop]
  | cons b rest ih =>
    intro store hdisj hnodup
    rw [insertOrderedLoop, hdisj b (List.mem_cons_self b rest)]
    simp only [Bool.false_eq_true, if_false]
    have hnodup' := hnodup
    rw [List.map_cons, List.nodup_cons] at hnodup'
    obtain ⟨hb, hrest⟩ := hnodup'
    have hdisj' : ∀ o ∈ rest, existsInStore (store ++ [b]) o.adjustmentId = false := by
      intro o ho
      unfold existsInStore at *
      rw [List.any_append]
      have h1 := hdisj o (List.mem_cons_of_mem b ho)
      have h2 : (b.adjustmentId == o.adjustmentId) = false := by
        rw [beq_eq_false_iff_ne]
        intro hcontra
        refine hb ?_
        rw [hcontra]
        exact List.mem_map_of_mem (·.adjustmentId) ho
      simp [h1, h2]
    rw [ih (store ++ [b]) hdisj' hrest]
    simp

lemma insertOrderedLoop_mem :
    ∀ (batch store : List Offer) (o : Offer),
      o ∈ (insertOrderedLoop store batch).1 → o ∈ store ∨ o ∈ batch := by
  intro batch
  induction batch with
  | nil => intro store o h; exact Or.inl h
  | cons b rest ih =>
    intro store o h
    rw [insertOrderedLoop] at h
    by_cases hex : existsInStore store b.adjustmentId = true
    · rw [if_pos hex] at h; exact Or.inl h
    · rw [if_neg hex] at h
      rcases ih (store ++ [b]) o h with h' | h'
      · rcases List.mem_append.mp h' with h'' | h''
        · exact Or.inl h''
        · rw [List.mem_singleton] at h''
          exact Or.inr (h'' ▸ List.mem_cons_self b rest)
      · exact Or.inr (List.mem_cons_of_mem b h')

lemma insertManyOrdered_success (batch store : List Offer)
    (hvalid : ∀ o ∈ batch, validOffer o = true)
    (hdisj : ∀ o ∈ batch, existsInStore store o.adjustmentId = false)
    (hnodup : (batch.map (·.adjustmentId)).Nodup) :
    insertManyOrdered store batch = (store ++ batch, true) := by
  unfold insertManyOrdered
  rw [if_pos (List.all_eq_true.mpr hvalid)]
  exact insertOrderedLoop_success batch store hdisj hnodup

lemma insertManyOrdered_mem (batch store : List Offer) (o : Offer)
    (h : o ∈ (insertManyOrdered store batch).1) : o ∈ store ∨ o ∈ batch := by
  unfold insertManyOrdered at h
  by_cases hv : batch.all validOffer = true
  · rw [if_pos hv] at h
    exact insertOrderedLoop_mem batch store o h
  · rw [if_neg hv] at h
    exact Or.inl h

/-- Unit conversion agrees with the spec-side converter. -/
lemma getD_div_eq_specMinorToMajor (x : Option ℚ) :
    (x.getD 0) / 100 = specMinorToMajor x := by
  cases x <;> simp [specMinorToMajor]

/-! ## Evaluation of the concrete fixtures

`Rat` arithmetic is irreducible by design, so these concrete runs of the
normalizer are established once by `simp`/`norm_num` and reused below. -/

lemma normalize_examplePayload : normalizeOffers examplePayload = Except.ok [exampleOffer] := by
  have hpct : parseSummaryForPercentage exampleSummary = 5 := by decide
  simp +decide only [normalizeOffers, apiRoot, examplePayload, buildContributorsMap,
    adjListOf, keepAdj, mapAdjList, mapAdj, lookupLast, exampleContributors,
    Option.getD_some, List.foldl, List.filter, List.filterMap, hpct, exampleOffer]
  norm_num [List.filterMap_cons, id_eq]

lemma normalize_emptyPayload : normalizeOffers emptyPayload = Except.ok [] := by
  simp +decide only [normalizeOffers, apiRoot, emptyPayload, buildContributorsMap,
    adjListOf, keepAdj, mapAdjList, mapAdj, lookupLast, List.foldl, List.filter,
    List.filterMap]

lemma normalize_dupIdPayload :
    normalizeOffers dupIdPayload = Except.ok [dupOffer1, dupOffer2] := by
  have h1 : parseSummaryForPercentage "first copy" = 0 := by decide
  have h2 : parseSummaryForPercentage "second copy" = 0 := by decide
  simp +decide only [normalizeOffers, apiRoot, dupIdPayload, buildContributorsMap,
    adjListOf, keepAdj, mapAdjList, mapAdj, lookupLast, exampleContributors,
    Option.getD_some, List.foldl, List.filter, List.filterMap, h1, h2, dupOffer1,
    dupOffer2]
  norm_num [List.filterMap_cons, id_eq]

lemma normalize_noTitlePayload :
    normalizeOffers noTitlePayload = Except.ok [noTitleOffer] := by
  have h1 : parseSummaryForPercentage "plain offer" = 0 := by decide
  simp +decide only [normalizeOffers, apiRoot, noTitlePayload, buildContributorsMap,
    adjListOf, keepAdj, mapAdjList, mapAdj, lookupLast, exampleContributors,
    Option.getD_some, List.foldl, List.filter, List.filterMap, h1, noTitleOffer]
  norm_num [List.filterMap_cons, id_eq]

lemma normalize_noSummaryPayload : normalizeOffers noSummaryPayload = Except.error () := by
  simp +decide only [normalizeOffers, apiRoot, noSummaryPayload, buildContributorsMap,
    adjListOf, keepAdj, mapAdjList, mapAdj, lookupLast, exampleContributors,
    Option.getD_some, List.foldl, List.filter, List.filterMap, if_true]

lemma normalize_pct200Payload :
    normalizeOffers pct200Payload = Except.ok [pct200Offer] := by
  have h1 : parseSummaryForPercentage "get 200% off now" = 200 := by decide
  simp +decide only [normalizeOffers, apiRoot, pct200Payload, buildContributorsMap,
    adjListOf, keepAdj, mapAdjList, mapAdj, lookupLast, exampleContributors,
    Option.getD_some, List.foldl, List.filter, List.filterMap, h1, pct200Offer]
  norm_num [List.filterMap_cons, id_eq]

/-! ## Claim theorems: ingestion -/

/-- C7: an ingestion whose normalization yields zero candidates responds
200 with both counts 0, performs no storage operation, and leaves the store
untouched. -/
theorem c7_zero_candidates (store : List Offer) (p : Payload)
    (h : normalizeOffers p = Except.ok []) :
    createOffers store (some p) = ⟨store, CreateResponse.ok 200 0 0, []⟩ := by
  simp [createOffers, h]

/-- Witness for `c7_zero_candidates`: a payload with an empty
`adjustment_list`. -/
theorem c7_zero_candidates_witness :
    normalizeOffers emptyPayload = Except.ok [] ∧
    createOffers [] (some emptyPayload) = ⟨[], CreateResponse.ok 200 0 0, []⟩ :=
  ⟨normalize_emptyPayload, c7_zero_candidates [] emptyPayload normalize_emptyPayload⟩

/-- C2 (amended): when the candidates carry pairwise-distinct
`adjustmentId`s and each passes the Offer schema's document validation,
ingesting the same payload twice against an initially disjoint store
reports `identified = N, created = N` then `identified = N, created = 0`,
and the second call leaves the store unchanged. -/
theorem c2_amended_idempotence (store : List Offer) (p : Payload) (offers : List Offer)
    (h1 : normalizeOffers p = Except.ok offers)
    (h2 : (offers.map (·.adjustmentId)).Nodup)
    (h3 : ∀ o ∈ offers, existsInStore store o.adjustmentId = false)
    (h4 : ∀ o ∈ offers, validOffer o = true) :
    reportedCounts (createOffers store (some p)).response
      = some (offers.length, offers.length) ∧
    reportedCounts (createOffers (createOffers store (some p)).store (some p)).response
      = some (offers.length, 0) ∧
    (createOffers (createOffers store (some p)).store (some p)).store
      = (createOffers store (some p)).store := by
  by_cases hz : offers.length = 0
  · have he : offers = [] := List.length_eq_zero.mp hz
    subst he
    have h0 : createOffers store (some p) = ⟨store, CreateResponse.ok 200 0 0, []⟩ := by
      simp [createOffers, h1]
    simp [h0, reportedCounts]
  · have hlen : 0 < offers.length := Nat.pos_of_ne_zero hz
    have hfil : offers.filter (fun o => !(existsInStore store o.adjustmentId)) = offers := by
      rw [List.filter_eq_self]
      intro o ho
      rw [h3 o ho]
      rfl
    have hins := insertManyOrdered_success offers store h4 h3 h2
    have hc1 : createOffers store (some p)
        = ⟨store ++ offers, CreateResponse.ok 201 offers.length offers.length,
           [StoreOp.find (offers.map (·.adjustmentId)), StoreOp.insert offers]⟩ := by
      simp only [createOffers, h1, if_neg hz, hfil]
      simp only [insertPhase, if_pos hlen, hins]
    have hfil2 : offers.filter (fun o => !(existsInStore (store ++ offers) o.adjustmentId)) = [] := by
      rw [List.filter_eq_nil_iff]
      intro o ho
      have hex : existsInStore (store ++ offers) o.adjustmentId = true := by
        unfold existsInStore
        rw [List.any_append]
        have hany : offers.any (fun e => e.adjustmentId == o.adjustmentId) = true :=
          List.any_eq_true.mpr ⟨o, ho, beq_self_eq_true o.adjustmentId⟩
        simp [hany]
      simp [hex]
    have hc2 : createOffers (store ++ offers) (some p)
        = ⟨store ++ offers, CreateResponse.ok 201 offers.length 0,
           [StoreOp.find (offers.map (·.adjustmentId))]⟩ := by
      simp only [createOffers, h1, if_neg hz, hfil2]
      simp [insertPhase]
    simp [hc1, hc2, reportedCounts]

/-- Witness for `c2_amended_idempotence`: the worked example ingested twice
against the empty store. -/
theorem c2_amended_idempotence_witness :
    reportedCounts (createOffers [] (some examplePayload)).response = some (1, 1) ∧
    reportedCounts (createOffers (createOffers [] (some examplePayload)).store
        (some examplePayload)).response = some (1, 0) ∧
    (createOffers (createOffers [] (some examplePayload)).store
        (some examplePayload)).store = (createOffers [] (some examplePayload)).store :=
  c2_amended_idempotence [] examplePayload [exampleOffer] normalize_examplePayload
    (by simp) (fun o _ => rfl) (by decide)

/-- C2 counterexample: a payload carrying two schema-valid adjustments
with the same `adjustment_id` normalizes to two candidates, but its first
ingestion against the empty (hence disjoint) store hits the unique index
inside `insertMany` and answers 500, so no counts are reported at all; and
a payload whose distinct-id candidate lacks the required `title` makes
`insertMany` reject on document validation, again answering 500 instead of
reporting `created = N`. -/
theorem c2_counterexample :
    (normalizeOffers dupIdPayload = Except.ok [dupOffer1, dupOffer2] ∧
      (createOffers [] (some dupIdPayload)).response = CreateResponse.serverError ∧
      reportedCounts (createOffers [] (some dupIdPayload)).response = none) ∧
    (normalizeOffers noTitlePayload = Except.ok [noTitleOffer] ∧
      (createOffers [] (some noTitlePayload)).response = CreateResponse.serverError ∧
      (createOffers [] (some noTitlePayload)).store = []) := by
  have hrun : (createOffers [] (some dupIdPayload)).response = CreateResponse.serverError := by
    simp +decide only [createOffers, normalize_dupIdPayload, insertPhase,
      insertManyOrdered, insertOrderedLoop, validOffer, requiredString, existsInStore,
      dupOffer1, dupOffer2, List.all_cons, List.all_nil, List.length_cons,
      List.filter, List.map, List.any, List.length_nil]
  have hrun2 : createOffers [] (some noTitlePayload)
      = ⟨[], CreateResponse.serverError,
         [StoreOp.find ["NT1"], StoreOp.insert [noTitleOffer]]⟩ := by
    simp +decide only [createOffers, normalize_noTitlePayload, insertPhase,
      insertManyOrdered, insertOrderedLoop, validOffer, requiredString, existsInStore,
      noTitleOffer, List.all_cons, List.all_nil, List.length_cons,
      List.filter, List.map, List.any, List.length_nil]
  refine ⟨⟨normalize_dupIdPayload, hrun, by rw [hrun]; rfl⟩,
    normalize_noTitlePayload, ?_, ?_⟩ <;> rw [hrun2]

/-- C3: every offer in the store after an ingestion either was there before
or is a normalizer candidate; every candidate stems from an adjustment that
has offer details, whose sub-type is not the full-interest-waiver sentinel,
and whose id has an entry in the contributors map (the candidate keeping
that id); and an adjustment with details but no contributors-map entry is
dropped (`null`), not an error. -/
theorem c3_correlation_invariant :
    (∀ (store : List Offer) (body : Option Payload) (o : Offer),
        o ∈ (createOffers store body).store →
        o ∈ store ∨ ∃ p offers, body = some p ∧
          normalizeOffers p = Except.ok offers ∧ o ∈ offers) ∧
    (∀ (p : Payload) (offers : List Offer), normalizeOffers p = Except.ok offers →
        ∀ o ∈ offers, ∃ adj ∈ adjListOf (apiRoot p), ∃ d, adj.offer_details = some d ∧
          d.adjustment_sub_type ≠ some "EMI_FULL_INTEREST_WAIVER" ∧
          ∃ aid, d.adjustment_id = some aid ∧
            (lookupLast (buildContributorsMap (apiRoot p)) aid).isSome = true ∧
            o.adjustmentId = aid) ∧
    (∀ (cmap : List (String × Contributors)) (adj : Adjustment) (d : OfferDetails),
        adj.offer_details = some d →
        (∀ aid, d.adjustment_id = some aid → lookupLast cmap aid = none) →
        mapAdj cmap adj = Except.ok none) := by
  refine ⟨?_, ?_, ?_⟩
  · intro store body o ho
    cases body with
    | none => exact Or.inl ho
    | some p =>
      rcases hn : normalizeOffers p with e | offers
      · simp only [createOffers, hn] at ho
        exact Or.inl ho
      · simp only [createOffers, hn] at ho
        by_cases hz : offers.length = 0
        · rw [if_pos hz] at ho
          exact Or.inl ho
        · rw [if_neg hz] at ho
          simp only [insertPhase] at ho
          by_cases hnew :
              0 < (offers.filter (fun o => !(existsInStore store o.adjustmentId))).length
          · rw [if_pos hnew] at ho
            rcases hio : insertManyOrdered store
                (offers.filter (fun o => !(existsInStore store o.adjustmentId))) with ⟨s', b⟩
            rw [hio] at ho
            cases b with
            | true =>
              simp only at ho
              have hmem : o ∈ (insertManyOrdered store
                  (offers.filter (fun o => !(existsInStore store o.adjustmentId)))).1 := by
                rw [hio]; exact ho
              rcases insertManyOrdered_mem _ store o hmem with h' | h'
              · exact Or.inl h'
              · exact Or.inr ⟨p, offers, rfl, hn, List.mem_of_mem_filter h'⟩
            | false =>
              simp only at ho
              have hmem : o ∈ (insertManyOrdered store
                  (offers.filter (fun o => !(existsInStore store o.adjustmentId)))).1 := by
                rw [hio]; exact ho
              rcases insertManyOrdered_mem _ store o hmem with h' | h'
              · exact Or.inl h'
              · exact Or.inr ⟨p, offers, rfl, hn, List.mem_of_mem_filter h'⟩
          · rw [if_neg hnew] at ho
            exact Or.inl ho
  · intro p offers hn o ho
    obtain ⟨adj, hadj, hkeep, hmap⟩ := normalizeOffers_mem p offers o hn ho
    obtain ⟨d, aid, c, s, instrs, hdet, haid, hc, _, _, hoid, _⟩ :=
      mapAdj_ok_some _ _ _ hmap
    refine ⟨adj, hadj, d, hdet, ?_, aid, haid, ?_, hoid⟩
    · have hk := hkeep
      rw [keepAdj, hdet] at hk
      exact of_decide_eq_true hk
    · rw [hc]
      rfl
  · intro cmap adj d hdet hnone
    simp only [mapAdj, hdet]
    rcases haid : d.adjustment_id with _ | aid
    · simp
    · simp [hnone aid haid]

/-- Witness for `c3_correlation_invariant`: the worked example's single
candidate traced back to its adjustment. -/
theorem c3_correlation_invariant_witness :
    ∃ adj ∈ adjListOf (apiRoot examplePayload), ∃ d, adj.offer_details = some d ∧
      d.adjustment_sub_type ≠ some "EMI_FULL_INTEREST_WAIVER" ∧
      ∃ aid, d.adjustment_id = some aid ∧
        (lookupLast (buildContributorsMap (apiRoot examplePayload)) aid).isSome = true ∧
        exampleOffer.adjustmentId = aid :=
  c3_correlation_invariant.2.1 examplePayload [exampleOffer] normalize_examplePayload
    exampleOffer (List.mem_singleton.mpr rfl)

/-! ## Claim theorems: normalizer field extraction -/

/-- C5 (amended): on a surviving candidate with a contributors-map entry,
normalization never throws as long as `summary` and `payment_instrument`
are present — a missing `offer_txn_limits` defaults both amounts to 0 and a
missing `banks` list defaults to an empty array — but a missing `summary`
or a missing `payment_instrument` list makes the map callback throw (the
controller answers 500). -/
theorem c5_amended_optional_fields :
    (∀ (cmap : List (String × Contributors)) (adj : Adjustment) (d : OfferDetails)
        (aid : String) (c : Contributors) (s : String) (instrs : List String),
        adj.offer_details = some d → d.adjustment_id = some aid →
        lookupLast cmap aid = some c → d.summary = some s →
        c.payment_instrument = some instrs →
        ∃ o, mapAdj cmap adj = Except.ok (some o) ∧
          (d.offer_txn_limits = none → o.minTrxnValue = 0 ∧ o.maxDiscount = 0) ∧
          (c.banks = none → ∀ pi ∈ o.paymentInstruments, pi.banks = [])) ∧
    (∀ (cmap : List (String × Contributors)) (adj : Adjustment) (d : OfferDetails)
        (aid : String) (c : Contributors),
        adj.offer_details = some d → d.adjustment_id = some aid →
        lookupLast cmap aid = some c →
        (d.summary = none ∨ c.payment_instrument = none) →
        mapAdj cmap adj = Except.error ()) := by
  constructor
  · intro cmap adj d aid c s instrs hdet haid hc hs hpi
    refine ⟨{ adjustmentId := aid, title := d.title, description := s,
              type := d.adjustment_type,
              paymentInstruments := instrs.map (fun instrument =>
                { paymentInstrument := instrument, banks := c.banks.getD [] }),
              minTrxnValue := ((d.offer_txn_limits.bind (·.min_txn_value)).getD 0) / 100,
              maxDiscount := ((d.offer_txn_limits.bind (·.max_discount_per_txn)).getD 0) / 100,
              discountPercentage := parseSummaryForPercentage s }, ?_, ?_, ?_⟩
    · simp only [mapAdj, hdet, haid, hc, hs, hpi, Option.getD_some]
    · intro hlim
      constructor <;> simp [hlim]
    · intro hbanks pi hpi'
      simp only [hbanks, Option.getD_none] at hpi'
      obtain ⟨i, _, rfl⟩ := List.mem_map.mp hpi'
      rfl
  · intro cmap adj d aid c hdet haid hc hcase
    rcases hcase with hs | hpi
    · simp [mapAdj, hdet, haid, hc, hs]
    · rcases hs' : d.summary with _ | s
      · simp [mapAdj, hdet, haid, hc, hs']
      · simp [mapAdj, hdet, haid, hc, hs', hpi]

/-- Witness for `c5_amended_optional_fields`: a candidate with summary and
instruments present but no `offer_txn_limits`. -/
theorem c5_amended_optional_fields_witness :
    ∃ o, mapAdj [("ADJ1", exampleContributors)]
        ⟨some ⟨some "ADJ1", none, some "plain text", none, none, none⟩⟩
      = Except.ok (some o) ∧
      ((⟨some "ADJ1", none, some "plain text", none, none, none⟩ :
          OfferDetails).offer_txn_limits = none →
        o.minTrxnValue = 0 ∧ o.maxDiscount = 0) ∧
      (exampleContributors.banks = none → ∀ pi ∈ o.paymentInstruments, pi.banks = []) :=
  c5_amended_optional_fields.1 [("ADJ1", exampleContributors)]
    ⟨some ⟨some "ADJ1", none, some "plain text", none, none, none⟩⟩
    ⟨some "ADJ1", none, some "plain text", none, none, none⟩
    "ADJ1" exampleContributors "plain text" ["CREDIT"]
    rfl rfl (by decide) rfl rfl

/-- C5 counterexample: a surviving candidate with a matching contributor
but no `summary` makes the whole normalization throw — the ingestion
answers 500 instead of defaulting the field. -/
theorem c5_counterexample :
    normalizeOffers noSummaryPayload = Except.error () ∧
    (createOffers [] (some noSummaryPayload)).response = CreateResponse.serverError := by
  refine ⟨normalize_noSummaryPayload, ?_⟩
  simp only [createOffers, normalize_noSummaryPayload]

/-- C6: when a concurrent ingestion created `A1` between the existence
check and the insert, the ordered `insertMany` rejects the batch at the
duplicate: the request answers 500 and the remaining non-duplicate
candidate `B1` is not inserted — the duplicate is not treated as "already
exists". -/
theorem c6_duplicate_key_aborts_batch :
    insertPhase [concurrentOffer] [dupOffer1, secondOffer] 2
      = ([concurrentOffer], CreateResponse.serverError) ∧
    secondOffer ∉ (insertPhase [concurrentOffer] [dupOffer1, secondOffer] 2).1 := by
  constructor
  · rfl
  · decide

/-- C8: every normalized offer's `minTrxnValue` and `maxDiscount` are the
minor-to-major conversion (divide by 100, absent vendor field giving 0) of
its source adjustment's `offer_txn_limits` fields; in particular a
`min_txn_value` of 500000 minor units converts to 5000 major units. -/
theorem c8_unit_conversion :
    (∀ (p : Payload) (offers : List Offer), normalizeOffers p = Except.ok offers →
        ∀ o ∈ offers, ∃ adj ∈ adjListOf (apiRoot p), ∃ d, adj.offer_details = some d ∧
          o.minTrxnValue = specMinorToMajor (d.offer_txn_limits.bind (·.min_txn_value)) ∧
          o.maxDiscount = specMinorToMajor (d.offer_txn_limits.bind (·.max_discount_per_txn))) ∧
    specMinorToMajor (some 500000) = 5000 := by
  constructor
  · intro p offers hn o ho
    obtain ⟨adj, hadj, _, hmap⟩ := normalizeOffers_mem p offers o hn ho
    obtain ⟨d, aid, c, s, instrs, hdet, _, _, _, _, _, _, _, _, _, hmin, hmax, _⟩ :=
      mapAdj_ok_some _ _ _ hmap
    refine ⟨adj, hadj, d, hdet, ?_, ?_⟩
    · rw [hmin, getD_div_eq_specMinorToMajor]
    · rw [hmax, getD_div_eq_specMinorToMajor]
  · norm_num [specMinorToMajor]

/-- Witness for `c8_unit_conversion`: the worked example (500000 and 75000
minor units). -/
theorem c8_unit_conversion_witness :
    ∃ adj ∈ adjListOf (apiRoot examplePayload), ∃ d, adj.offer_details = some d ∧
      exampleOffer.minTrxnValue
        = specMinorToMajor (d.offer_txn_limits.bind (·.min_txn_value)) ∧
      exampleOffer.maxDiscount
        = specMinorToMajor (d.offer_txn_limits.bind (·.max_discount_per_txn)) :=
  c8_unit_conversion.1 examplePayload [exampleOffer] normalize_examplePayload
    exampleOffer (List.mem_singleton.mpr rfl)

/-- C9 (amended): every offer record the normalizer produces has a
`discountPercentage` that is (the cast of) a natural number — non-negative
and integral, with 0 as the no-pattern default — but it is not bounded by
100. -/
theorem c9_amended_percentage_integer (p : Payload) (offers : List Offer)
    (h : normalizeOffers p = Except.ok offers) :
    ∀ o ∈ offers, 0 ≤ o.discountPercentage ∧ ∃ n : ℕ, o.discountPercentage = (n : ℚ) := by
  intro o ho
  obtain ⟨adj, _, _, hmap⟩ := normalizeOffers_mem p offers o h ho
  obtain ⟨d, aid, c, s, instrs, _, _, _, _, _, _, _, _, _, _, _, _, hdp⟩ :=
    mapAdj_ok_some _ _ _ hmap
  obtain ⟨n, hn⟩ := parseSummaryForPercentage_natCast s
  rw [hdp, hn]
  exact ⟨Nat.cast_nonneg n, n, rfl⟩

/-- Witness for `c9_amended_percentage_integer`: the worked example. -/
theorem c9_amended_percentage_integer_witness :
    0 ≤ exampleOffer.discountPercentage ∧
    ∃ n : ℕ, exampleOffer.discountPercentage = (n : ℚ) :=
  c9_amended_percentage_integer examplePayload [exampleOffer] normalize_examplePayload
    exampleOffer (List.mem_singleton.mpr rfl)

/-- C9 counterexample: a description advertising `200% off` yields a
normalized record whose `discountPercentage` is 200, above the claimed
bound of 100. -/
theorem c9_counterexample :
    normalizeOffers pct200Payload = Except.ok [pct200Offer] ∧
    ¬ pct200Offer.discountPercentage ≤ 100 :=
  ⟨normalize_pct200Payload, by decide⟩
